import Mathlib

/-!
Shallow embedding of `src/src/godot_redux.rs`, a Redux-style store exposed to
Godot through gdnative.  Godot `Variant`s are modelled by `Val`, dictionaries
by association lists, and the user-supplied callables (reducer, middleware,
subscribers) by an environment mapping an object id and a method name to a
call outcome.  Running the dispatch pipeline yields the updated store, the
ordered trace of host invocations it performed, and whether it returned
normally or was aborted by an unwinding failure.

A second, heap-based model of dictionaries captures Godot's reference
semantics for nested dictionaries; it is used for the claims about
`state()` returning a copy of the internal state.
-/

namespace GodotReduxModel

/-- Model of a Godot `Variant` value as far as the store manipulates them:
nil, integers, strings and dictionaries (as association lists). -/
inductive Val : Type where
  | vnil : Val
  | vint : Int → Val
  | vstr : String → Val
  | vdict : List (String × Val) → Val

/-- A Godot dictionary, by value: an association list. -/
abbrev Dict := List (String × Val)

/-- Model of `Variant::try_to_i64`: succeeds exactly on integer variants. -/
def try_to_i64 : Val → Option Int
  | Val.vint n => some n
  | _ => none

/-- Model of `Variant::to_dictionary`: Godot coerces a non-dictionary variant
(nil included) to the empty dictionary. -/
def to_dictionary : Val → Dict
  | Val.vdict d => d
  | _ => []

/-- An opaque id of a host object on which callables live. -/
abbrev ObjRef := Nat

/-- Failure message of an unwinding call. -/
abbrev Err := String

/-- A Godot `FuncRef`: freshly constructed (`FuncRef::new`, no target set) or
bound to an instance and a method name by `set_instance` / `set_function`. -/
inductive FuncRef : Type where
  | unset : FuncRef
  | bound : ObjRef → String → FuncRef
deriving DecidableEq

/-- The possible outcomes of the host calling a bound target:
`ok v` is a successful call returning `v`; `callError` is a Godot-level call
failure (absent instance, missing method, script error inside the callee),
which Godot reports through a `Variant::CallError` while returning nil;
`panic e` is an unwinding failure on the native side. -/
inductive CallOutcome : Type where
  | ok : Val → CallOutcome
  | callError : CallOutcome
  | panic : Err → CallOutcome

/-- The host environment: resolves an object id and a method name applied to
arguments. -/
def Env : Type := ObjRef → String → List Val → CallOutcome

/-- Model of `FuncRef::call_func`, following Godot's semantics: calling an unset
`FuncRef` sets a call error and returns nil without invoking anything; a call
failure inside the host is likewise reported as a nil result (the binding
discards the `Variant::CallError`); only an unwinding failure propagates to
the native caller. -/
def FuncRef.call_func (env : Env) : FuncRef → List Val → Except Err Val
  | FuncRef.unset, _ => Except.ok Val.vnil
  | FuncRef.bound o m, args =>
    match env o m args with
    | CallOutcome.ok v => Except.ok v
    | CallOutcome.callError => Except.ok Val.vnil
    | CallOutcome.panic e => Except.error e

/-- One host invocation performed by the store, with the arguments passed:
a middleware call (with its index in the chain), the reducer call, or a
subscriber notification. -/
inductive Event : Type where
  | mwCall : Nat → FuncRef → Dict → Int → Event
  | reducerCall : FuncRef → Dict → Int → Event
  | subCall : FuncRef → Dict → Event

/-- How a run of (part of) the dispatch pipeline ended: normal return, or an
unwinding failure propagating out. -/
inductive Outcome : Type where
  | ok : Outcome
  | err : Err → Outcome
deriving DecidableEq

/-- The store: mirrors the fields of the `GodotRedux` struct. -/
structure GodotRedux : Type where
  state : Dict
  reducer : FuncRef
  middleware : List FuncRef
  subscriptions : List FuncRef

/-- Result of running (part of) the dispatch pipeline: the store afterwards,
the trace of host invocations performed (in order), and the outcome. -/
structure RunResult : Type where
  store : GodotRedux
  trace : List Event
  outcome : Outcome

/-- Model of `GodotRedux::new`: empty state, an unset reducer `FuncRef`, no middleware,
no subscriptions. -/
def GodotRedux.new : GodotRedux :=
  ⟨[], FuncRef.unset, [], []⟩

/-- Model of `set_state_and_reducer`: replace the state, bind a fresh `FuncRef` to the
given instance and method name as the reducer, and reset both the middleware
and the subscription lists to empty. -/
def GodotRedux.set_state_and_reducer (_st : GodotRedux) (initial_state : Dict)
    (inst : ObjRef) (name : String) : GodotRedux :=
  ⟨initial_state, FuncRef.bound inst name, [], []⟩

/-- Model of `subscribe`: push a `FuncRef` bound to the given instance and method name
onto the subscription list. -/
def GodotRedux.subscribe (st : GodotRedux) (inst : ObjRef) (name : String) :
    GodotRedux :=
  { st with subscriptions := st.subscriptions ++ [FuncRef.bound inst name] }

/-- Model of `add_middleware`: push a `FuncRef` bound to the given instance and method
name onto the middleware list. -/
def GodotRedux.add_middleware (st : GodotRedux) (inst : ObjRef) (name : String) :
    GodotRedux :=
  { st with middleware := st.middleware ++ [FuncRef.bound inst name] }

/-- The loop body of `dispatch_subscriptions`: call each subscription with the
current state, ignoring results; an unwinding failure stops the iteration and
propagates. -/
def runSubscriptions (env : Env) (s : Dict) : List FuncRef → List Event × Outcome
  | [] => ([], Outcome.ok)
  | f :: rest =>
    match f.call_func env [Val.vdict s] with
    | Except.error e => ([Event.subCall f s], Outcome.err e)
    | Except.ok _ =>
      let r := runSubscriptions env s rest
      (Event.subCall f s :: r.1, r.2)

/-- Model of `dispatch_subscriptions`: run every subscription with the current state;
the store itself is not modified. -/
def GodotRedux.dispatch_subscriptions (env : Env) (st : GodotRedux) : RunResult :=
  let r := runSubscriptions env st.state st.subscriptions
  ⟨st, r.1, r.2⟩

/-- Model of `dispatch_reducer`: call the reducer with the current state and the
action, store the result coerced to a dictionary as the new state, then run
the subscriptions. -/
def GodotRedux.dispatch_reducer (env : Env) (st : GodotRedux) (action : Int) :
    RunResult :=
  match st.reducer.call_func env [Val.vdict st.state, Val.vint action] with
  | Except.error e =>
    ⟨st, [Event.reducerCall st.reducer st.state action], Outcome.err e⟩
  | Except.ok new_state =>
    let st2 : GodotRedux := { st with state := to_dictionary new_state }
    let r := st2.dispatch_subscriptions env
    ⟨r.store, Event.reducerCall st.reducer st.state action :: r.trace, r.outcome⟩

/-- Model of `dispatch_middleware`: when the index has reached the end of the
middleware list, hand the action to the reducer; otherwise call the middleware
at the index with the current state and the action.  If the result converts
to an integer the chain continues at the next index with that integer as the
action; otherwise the function returns (the whole dispatch silently halts).
An index beyond the list length would panic in Rust (out-of-bounds indexing)
and is modelled as an unwinding failure; it is unreachable from `dispatch`. -/
def GodotRedux.dispatch_middleware (env : Env) (st : GodotRedux) (index : Nat)
    (action : Int) : RunResult :=
  if index = st.middleware.length then
    st.dispatch_reducer env action
  else if h : index < st.middleware.length then
    let f := st.middleware.get ⟨index, h⟩
    match f.call_func env [Val.vdict st.state, Val.vint action] with
    | Except.error e => ⟨st, [Event.mwCall index f st.state action], Outcome.err e⟩
    | Except.ok next =>
      match try_to_i64 next with
      | some x =>
        let r := st.dispatch_middleware env (index + 1) x
        ⟨r.store, Event.mwCall index f st.state action :: r.trace, r.outcome⟩
      | none => ⟨st, [Event.mwCall index f st.state action], Outcome.ok⟩
  else
    ⟨st, [], Outcome.err "middleware index out of bounds"⟩
termination_by st.middleware.length - index
decreasing_by omega

/-- Model of `dispatch`: with an empty middleware list go straight to the reducer,
otherwise start the middleware chain at index 0. -/
def GodotRedux.dispatch (env : Env) (st : GodotRedux) (action : Int) : RunResult :=
  if st.middleware.isEmpty then st.dispatch_reducer env action
  else st.dispatch_middleware env 0 action

/-- Holds (as `true`) exactly on middleware-call events. -/
def isMwCall : Event → Bool
  | Event.mwCall _ _ _ _ => true
  | _ => false

/-- Holds (as `true`) exactly on subscriber-notification events. -/
def isSubCall : Event → Bool
  | Event.subCall _ _ => true
  | _ => false

/-- Number of middleware invocations recorded in a trace. -/
def countMw (tr : List Event) : Nat := (tr.filter isMwCall).length

/-- Holds (as `true`) when an invocation returned (did not unwind). -/
def isOkE : Except Err Val → Bool
  | Except.ok _ => true
  | Except.error _ => false

/-- The list `acts` records the successive actions along the middleware chain:
`acts.getD 0 0` is the dispatched action and the middleware at each index
`j` (with `j + 1 < acts.length`) maps its incoming action to the next one as
a plain integer variant. -/
def ChainSteps (env : Env) (st : GodotRedux) (acts : List Int) : Prop :=
  ∀ j, j < acts.length - 1 →
    (st.middleware.getD j FuncRef.unset).call_func env
        [Val.vdict st.state, Val.vint (acts.getD j 0)]
      = Except.ok (Val.vint (acts.getD (j + 1) 0))

/-- The middleware-call events of a chain segment running from index `lo`
for `len` steps. -/
def mwTrace (st : GodotRedux) (acts : List Int) (lo len : Nat) : List Event :=
  (List.range' lo len).map
    (fun j => Event.mwCall j (st.middleware.getD j FuncRef.unset) st.state (acts.getD j 0))

/-! ### Heap model of dictionary reference semantics

Godot dictionaries are reference types.  `state()` calls the binding's
`Dictionary::duplicate`, which performs Godot's `Dictionary.duplicate` with
`deep = false`: the top-level key/value pairs are copied into a freshly
allocated dictionary, while values that are themselves dictionaries keep
referring to the same shared dictionary object.  The heap model makes those
references explicit in order to settle the copy-independence claims. -/

/-- Identity of a dictionary object on the heap. -/
abbrev DictId := Nat

/-- A heap value: scalars, or a reference to a dictionary on the heap. -/
inductive HVal : Type where
  | hnil : HVal
  | hint : Int → HVal
  | hstr : String → HVal
  | href : DictId → HVal
deriving DecidableEq

/-- The top-level entries of one dictionary object. -/
abbrev HEntries := List (String × HVal)

/-- The dictionary heap: position in the list = dictionary id. -/
structure Heap : Type where
  dicts : List HEntries
deriving DecidableEq

/-- The entries of the dictionary with id `d` (empty for a dangling id). -/
def Heap.entriesOf (h : Heap) (d : DictId) : HEntries := h.dicts.getD d []

/-- Allocate a fresh dictionary holding the given entries; returns the new
heap and the fresh id. -/
def Heap.alloc (h : Heap) (e : HEntries) : Heap × DictId :=
  (⟨h.dicts ++ [e]⟩, h.dicts.length)

/-- Model of `Dictionary::duplicate` (shallow, Godot `deep = false`): copy the
top-level entries of dictionary `d` into a fresh dictionary.  Nested
dictionary references are shared between the original and the copy. -/
def Heap.duplicate (h : Heap) (d : DictId) : Heap × DictId :=
  h.alloc (h.entriesOf d)

/-- Write key `k` to value `v` in an entry list, replacing an existing
binding or appending a new one. -/
def setEntry : HEntries → String → HVal → HEntries
  | [], k, v => [(k, v)]
  | kv :: rest, k, v =>
    if kv.1 = k then (k, v) :: rest else kv :: setEntry rest k v

/-- Write `dict[k] = v` on the dictionary object with id `d`. -/
def Heap.setKey (h : Heap) (d : DictId) (k : String) (v : HVal) : Heap :=
  ⟨h.dicts.set d (setEntry (h.entriesOf d) k v)⟩

/-- Read `dict[k]` on the dictionary object with id `d` (nil when absent). -/
def Heap.getKey (h : Heap) (d : DictId) (k : String) : HVal :=
  match (h.entriesOf d).find? (fun kv => kv.1 == k) with
  | some kv => kv.2
  | none => HVal.hnil

/-- Resolve a heap value to a plain `Val`, following dictionary references up
to `fuel` levels deep.  This is the value of the state as any observer
(a reducer, a middleware, a subscriber, or a `state()` caller) sees it. -/
def resolveV (h : Heap) (fuel : Nat) (v : HVal) : Val :=
  match fuel, v with
  | _, HVal.hnil => Val.vnil
  | _, HVal.hint n => Val.vint n
  | _, HVal.hstr s => Val.vstr s
  | 0, HVal.href _ => Val.vnil
  | f + 1, HVal.href d =>
    Val.vdict ((h.entriesOf d).map (fun kv => (kv.1, resolveV h f kv.2)))

/-- A heap value whose dictionary reference (if any) points below `n`. -/
def refBound (n : Nat) : HVal → Prop
  | HVal.href d => d < n
  | _ => True

/-- Well-formedness: every dictionary reference stored anywhere on the heap
points to an allocated dictionary. -/
def Heap.wfB (h : Heap) : Bool :=
  h.dicts.all (fun e => e.all (fun kv =>
    match kv.2 with
    | HVal.href d => decide (d < h.dicts.length)
    | _ => true))

/-- Apply a sequence of top-level writes to the dictionary with id `c`. -/
def applyMuts (c : DictId) (h : Heap) (ms : List (String × HVal)) : Heap :=
  ms.foldl (fun hh kv => hh.setKey c kv.1 kv.2) h

/-! ### Concrete stores and environments used in the scenario claims -/

/-- Value of the `counter` field of a state dictionary. -/
def lookupKey (d : Dict) (k : String) : Val :=
  match d.find? (fun kv => kv.1 == k) with
  | some kv => kv.2
  | none => Val.vnil

/-- Host environment for the counter scenario of the documentation: method
`reducer` maps action `0` (INCREMENT) to `{counter: counter + 1}` and action
`1` (DECREMENT) to `{counter: counter - 1}`; method `on_change` is a
subscriber that returns nothing. -/
def counterEnv : Env := fun _ name args =>
  match name, args with
  | "reducer", [Val.vdict s, Val.vint a] =>
    match lookupKey s "counter" with
    | Val.vint n =>
      if a = 0 then CallOutcome.ok (Val.vdict [("counter", Val.vint (n + 1))])
      else if a = 1 then CallOutcome.ok (Val.vdict [("counter", Val.vint (n - 1))])
      else CallOutcome.ok Val.vnil
    | _ => CallOutcome.callError
  | "on_change", [_] => CallOutcome.ok Val.vnil
  | _, _ => CallOutcome.callError

/-- The counter store: state `{counter: 0}`, the `reducer` method bound as
reducer, one subscriber, no middleware. -/
def counterStore : GodotRedux :=
  (GodotRedux.new.set_state_and_reducer [("counter", Val.vint 0)] 1 "reducer").subscribe
    1 "on_change"

/-- First dispatch of the counter scenario: INCREMENT. -/
def counterRun1 : RunResult := counterStore.dispatch counterEnv 0

/-- Second dispatch of the counter scenario: INCREMENT. -/
def counterRun2 : RunResult := counterRun1.store.dispatch counterEnv 0

/-- Third dispatch of the counter scenario: DECREMENT. -/
def counterRun3 : RunResult := counterRun2.store.dispatch counterEnv 1

/-- A store on which `set_state_and_reducer` has never been called, but which
has one subscriber registered. -/
def unconfiguredStore : GodotRedux := GodotRedux.new.subscribe 1 "on_change"

/-- Host environment for the veto scenario: middleware `m0` increments the
action, middleware `m1` returns nil (not convertible to an action), and
`m2` would increment again were it reached. -/
def vetoEnv : Env := fun _ name args =>
  match name, args with
  | "m0", [_, Val.vint n] => CallOutcome.ok (Val.vint (n + 1))
  | "m1", [_, _] => CallOutcome.ok Val.vnil
  | "m2", [_, Val.vint n] => CallOutcome.ok (Val.vint (n + 1))
  | "reducer", [Val.vdict _, Val.vint _] =>
    CallOutcome.ok (Val.vdict [("hit", Val.vint 1)])
  | "on_change", [_] => CallOutcome.ok Val.vnil
  | _, _ => CallOutcome.callError

/-- Store with three middleware (`m0`, `m1`, `m2`), a reducer and a
subscriber; `m1` vetoes. -/
def vetoStore : GodotRedux :=
  ((((GodotRedux.new.set_state_and_reducer [("counter", Val.vint 0)] 1 "reducer").add_middleware
        1 "m0").add_middleware
      1 "m1").add_middleware
    1 "m2").subscribe 1 "on_change"

/-- Host environment whose `reducer` method unwinds (a native panic). -/
def panicEnv : Env := fun _ name _ =>
  match name with
  | "reducer" => CallOutcome.panic "reducer panicked"
  | _ => CallOutcome.ok Val.vnil

/-- Host environment where every invocation of the `reducer` method fails
with a Godot call error (an absent or misconfigured callable), while the
subscriber works. -/
def badReducerEnv : Env := fun _ name _ =>
  match name with
  | "reducer" => CallOutcome.callError
  | _ => CallOutcome.ok Val.vnil

/-- Heap for the copy-independence counterexample: the store state is
dictionary `0` = `{a: <ref to dictionary 1>}` and dictionary `1` = `{x: 0}`. -/
def cexHeap : Heap := ⟨[[("a", HVal.href 1)], [("x", HVal.hint 0)]]⟩

/-! ### Unfolding lemmas for the dispatch pipeline -/

lemma dm_end (env : Env) (st : GodotRedux) (a : Int) :
    st.dispatch_middleware env st.middleware.length a = st.dispatch_reducer env a := by
  unfold GodotRedux.dispatch_middleware
  simp

lemma dm_step (env : Env) (st : GodotRedux) (i : Nat) (a x : Int)
    (h : i < st.middleware.length)
    (hc : (st.middleware.getD i FuncRef.unset).call_func env
        [Val.vdict st.state, Val.vint a] = Except.ok (Val.vint x)) :
    st.dispatch_middleware env i a =
      ⟨(st.dispatch_middleware env (i + 1) x).store,
       Event.mwCall i (st.middleware.getD i FuncRef.unset) st.state a
         :: (st.dispatch_middleware env (i + 1) x).trace,
       (st.dispatch_middleware env (i + 1) x).outcome⟩ := by
  have hne : i ≠ st.middleware.length := Nat.ne_of_lt h
  have hget : st.middleware.get ⟨i, h⟩ = st.middleware.getD i FuncRef.unset := by
    rw [List.get_eq_getElem, List.getD_eq_getElem _ _ h]
  conv_lhs => rw [GodotRedux.dispatch_middleware.eq_def]
  rw [if_neg hne, dif_pos h]
  simp only [hget, hc, try_to_i64]

lemma dm_halt_veto (env : Env) (st : GodotRedux) (i : Nat) (a : Int) (v : Val)
    (h : i < st.middleware.length)
    (hc : (st.middleware.getD i FuncRef.unset).call_func env
        [Val.vdict st.state, Val.vint a] = Except.ok v)
    (hv : try_to_i64 v = none) :
    st.dispatch_middleware env i a =
      ⟨st, [Event.mwCall i (st.middleware.getD i FuncRef.unset) st.state a],
       Outcome.ok⟩ := by
  have hne : i ≠ st.middleware.length := Nat.ne_of_lt h
  have hget : st.middleware.get ⟨i, h⟩ = st.middleware.getD i FuncRef.unset := by
    rw [List.get_eq_getElem, List.getD_eq_getElem _ _ h]
  conv_lhs => rw [GodotRedux.dispatch_middleware.eq_def]
  rw [if_neg hne, dif_pos h]
  simp only [hget, hc, hv]

lemma dm_halt_err (env : Env) (st : GodotRedux) (i : Nat) (a : Int) (e : Err)
    (h : i < st.middleware.length)
    (hc : (st.middleware.getD i FuncRef.unset).call_func env
        [Val.vdict st.state, Val.vint a] = Except.error e) :
    st.dispatch_middleware env i a =
      ⟨st, [Event.mwCall i (st.middleware.getD i FuncRef.unset) st.state a],
       Outcome.err e⟩ := by
  have hne : i ≠ st.middleware.length := Nat.ne_of_lt h
  have hget : st.middleware.get ⟨i, h⟩ = st.middleware.getD i FuncRef.unset := by
    rw [List.get_eq_getElem, List.getD_eq_getElem _ _ h]
  conv_lhs => rw [GodotRedux.dispatch_middleware.eq_def]
  rw [if_neg hne, dif_pos h]
  simp only [hget, hc]

lemma dispatch_eq_dm (env : Env) (st : GodotRedux) (a : Int)
    (h : st.middleware ≠ []) :
    st.dispatch env a = st.dispatch_middleware env 0 a := by
  unfold GodotRedux.dispatch
  rw [if_neg]
  simp [List.isEmpty_iff, h]

lemma dispatch_eq_dr (env : Env) (st : GodotRedux) (a : Int)
    (h : st.middleware = []) :
    st.dispatch env a = st.dispatch_reducer env a := by
  unfold GodotRedux.dispatch
  rw [if_pos]
  simp [List.isEmpty_iff, h]

lemma runSubscriptions_all_ok (env : Env) (s : Dict) (l : List FuncRef)
    (h : ∀ f ∈ l, isOkE (f.call_func env [Val.vdict s]) = true) :
    runSubscriptions env s l = (l.map (fun f => Event.subCall f s), Outcome.ok) := by
  induction l with
  | nil => rfl
  | cons f rest ih =>
    have hf := h f (by simp)
    cases hc : f.call_func env [Val.vdict s] with
    | error e => rw [hc] at hf; simp [isOkE] at hf
    | ok v =>
      rw [runSubscriptions, hc]
      rw [ih (fun g hg => h g (by simp [hg]))]
      simp

lemma runSubscriptions_err (env : Env) (s : Dict) (pre : List FuncRef)
    (g : FuncRef) (post : List FuncRef) (e : Err)
    (hpre : ∀ f ∈ pre, isOkE (f.call_func env [Val.vdict s]) = true)
    (hg : g.call_func env [Val.vdict s] = Except.error e) :
    runSubscriptions env s (pre ++ g :: post) =
      (pre.map (fun f => Event.subCall f s) ++ [Event.subCall g s], Outcome.err e) := by
  induction pre with
  | nil => simp only [List.nil_append, List.map_nil]; rw [runSubscriptions, hg]
  | cons f rest ih =>
    have hf := hpre f (by simp)
    cases hc : f.call_func env [Val.vdict s] with
    | error e2 => rw [hc] at hf; simp [isOkE] at hf
    | ok v =>
      rw [List.cons_append, runSubscriptions, hc]
      rw [ih (fun q hq => hpre q (by simp [hq]))]
      simp

lemma dr_ok (env : Env) (st : GodotRedux) (a : Int) (v : Val)
    (hr : st.reducer.call_func env [Val.vdict st.state, Val.vint a] = Except.ok v) :
    st.dispatch_reducer env a =
      ⟨{ st with state := to_dictionary v },
       Event.reducerCall st.reducer st.state a
         :: (runSubscriptions env (to_dictionary v) st.subscriptions).1,
       (runSubscriptions env (to_dictionary v) st.subscriptions).2⟩ := by
  rw [GodotRedux.dispatch_reducer, hr]
  rfl

lemma dr_err (env : Env) (st : GodotRedux) (a : Int) (e : Err)
    (hr : st.reducer.call_func env [Val.vdict st.state, Val.vint a] = Except.error e) :
    st.dispatch_reducer env a =
      ⟨st, [Event.reducerCall st.reducer st.state a], Outcome.err e⟩ := by
  rw [GodotRedux.dispatch_reducer, hr]

lemma dr_trace_head (env : Env) (st : GodotRedux) (a : Int) :
    (st.dispatch_reducer env a).trace.head? =
      some (Event.reducerCall st.reducer st.state a) := by
  rw [GodotRedux.dispatch_reducer]
  cases st.reducer.call_func env [Val.vdict st.state, Val.vint a] <;> rfl

/-- Running the chain from index `s` for `k` successful integer-returning
steps prepends the corresponding middleware-call events to the run starting
at index `s + k`. -/
lemma dm_chain (env : Env) (st : GodotRedux) (acts : List Int) :
    ∀ k s, s + k + 1 = acts.length → s + k ≤ st.middleware.length →
      ChainSteps env st acts →
      st.dispatch_middleware env s (acts.getD s 0) =
        ⟨(st.dispatch_middleware env (s + k) (acts.getD (s + k) 0)).store,
         mwTrace st acts s k
           ++ (st.dispatch_middleware env (s + k) (acts.getD (s + k) 0)).trace,
         (st.dispatch_middleware env (s + k) (acts.getD (s + k) 0)).outcome⟩ := by
  intro k
  induction k with
  | zero =>
    intro s _ _ _
    simp [mwTrace]
  | succ n ih =>
    intro s hlen hle hsteps
    have hs : s < st.middleware.length := by omega
    have hstep := hsteps s (by omega)
    rw [dm_step env st s (acts.getD s 0) (acts.getD (s + 1) 0) hs hstep]
    have h2 : s + 1 + n + 1 = acts.length := by omega
    have h3 : s + 1 + n ≤ st.middleware.length := by omega
    rw [ih (s + 1) h2 h3 hsteps]
    have hrw : s + 1 + n = s + (n + 1) := by omega
    rw [hrw] at *
    simp only [mwTrace, List.range'_succ, List.map_cons, List.cons_append]

/-! ### Claim theorems -/

/-- C10: `subscribe` leaves the state, the reducer binding and the middleware
list unchanged and appends exactly one entry at the end of the subscriber
list, keeping all prior entries in place; symmetrically, `add_middleware`
leaves the state, the reducer binding and the subscriber list unchanged and
appends exactly one entry at the end of the middleware list. -/
theorem registration_appends_preserve_frame (st : GodotRedux) (inst : ObjRef)
    (name : String) :
    ((st.subscribe inst name).state = st.state
      ∧ (st.subscribe inst name).reducer = st.reducer
      ∧ (st.subscribe inst name).middleware = st.middleware
      ∧ (st.subscribe inst name).subscriptions
          = st.subscriptions ++ [FuncRef.bound inst name])
    ∧ ((st.add_middleware inst name).state = st.state
      ∧ (st.add_middleware inst name).reducer = st.reducer
      ∧ (st.add_middleware inst name).subscriptions = st.subscriptions
      ∧ (st.add_middleware inst name).middleware
          = st.middleware ++ [FuncRef.bound inst name]) :=
  ⟨⟨rfl, rfl, rfl, rfl⟩, ⟨rfl, rfl, rfl, rfl⟩⟩

/-- C4: `set_state_and_reducer` replaces the state with the given initial
state, binds the given callable as the sole reducer, and clears both the
middleware and the subscriber lists; consequently a dispatch performed right
after the call notifies no subscriber at all (its trace is exactly one
reducer call), so a subscriber registered before the call is never invoked. -/
theorem set_state_and_reducer_resets_store (st : GodotRedux) (d : Dict)
    (inst : ObjRef) (name : String) :
    st.set_state_and_reducer d inst name
      = ⟨d, FuncRef.bound inst name, [], []⟩
    ∧ ∀ (env : Env) (a : Int), ∃ (st2 : GodotRedux) (oc : Outcome),
        (st.set_state_and_reducer d inst name).dispatch env a
          = ⟨st2, [Event.reducerCall (FuncRef.bound inst name) d a], oc⟩ := by
  refine ⟨rfl, ?_⟩
  intro env a
  rw [dispatch_eq_dr env _ a rfl]
  cases hc : (FuncRef.bound inst name).call_func env [Val.vdict d, Val.vint a] with
  | error e =>
    exact ⟨_, _, dr_err env _ a e hc⟩
  | ok v =>
    refine ⟨⟨to_dictionary v, FuncRef.bound inst name, [], []⟩, Outcome.ok, ?_⟩
    rw [dr_ok env _ a v hc]
    rfl

/-- C2: with an empty middleware list, `dispatch a` invokes the reducer
exactly once with the current state and `a`, unconditionally replaces the
whole stored state with the dictionary the reducer returned (full replace, no
merge), and then notifies every registered subscriber exactly once, in
registration order, with the new state (given that no subscriber unwinds). -/
theorem dispatch_empty_middleware_reduces_then_notifies (env : Env)
    (st : GodotRedux) (a : Int) (d : Dict)
    (hmw : st.middleware = [])
    (hred : st.reducer.call_func env [Val.vdict st.state, Val.vint a]
      = Except.ok (Val.vdict d))
    (hsubs : ∀ f ∈ st.subscriptions, isOkE (f.call_func env [Val.vdict d]) = true) :
    st.dispatch env a =
      ⟨{ st with state := d },
       Event.reducerCall st.reducer st.state a
         :: st.subscriptions.map (fun f => Event.subCall f d),
       Outcome.ok⟩ := by
  rw [dispatch_eq_dr env st a hmw, dr_ok env st a (Val.vdict d) hred]
  have hd : to_dictionary (Val.vdict d) = d := rfl
  rw [hd, runSubscriptions_all_ok env d st.subscriptions hsubs]

/-- Witness for C2 at the counter scenario: dispatching INCREMENT on the
counter store runs the reducer on `({counter: 0}, 0)`, replaces the state by
`{counter: 1}` and notifies the single subscriber with it. -/
theorem dispatch_empty_middleware_reduces_then_notifies_witness :
    counterStore.dispatch counterEnv 0 =
      ⟨{ counterStore with state := [("counter", Val.vint 1)] },
       Event.reducerCall (FuncRef.bound 1 "reducer") [("counter", Val.vint 0)] 0
         :: [Event.subCall (FuncRef.bound 1 "on_change") [("counter", Val.vint 1)]],
       Outcome.ok⟩ :=
  dispatch_empty_middleware_reduces_then_notifies counterEnv counterStore 0
    [("counter", Val.vint 1)] rfl rfl
    (by
      intro f hf
      rw [show counterStore.subscriptions = [FuncRef.bound 1 "on_change"] from rfl] at hf
      rw [List.mem_singleton.mp hf]
      rfl)

/-- C3: the middleware chain composes left to right: with middleware
`[f1, f2]`, `f1` is invoked with the current state and the dispatched action
`a`, `f2` with the current state and the action `f1` returned, and the
reducer with the final transformed action; in particular when each returns
its action plus one, the reducer receives `a + 2`. -/
theorem middleware_chain_composes_left_to_right (env : Env) (st : GodotRedux)
    (a : Int) (f1 f2 : FuncRef)
    (hmw : st.middleware = [f1, f2])
    (h1 : f1.call_func env [Val.vdict st.state, Val.vint a]
      = Except.ok (Val.vint (a + 1)))
    (h2 : f2.call_func env [Val.vdict st.state, Val.vint (a + 1)]
      = Except.ok (Val.vint (a + 2))) :
    st.dispatch env a =
      ⟨(st.dispatch_reducer env (a + 2)).store,
       Event.mwCall 0 f1 st.state a
         :: Event.mwCall 1 f2 st.state (a + 1)
         :: (st.dispatch_reducer env (a + 2)).trace,
       (st.dispatch_reducer env (a + 2)).outcome⟩
    ∧ (st.dispatch_reducer env (a + 2)).trace.head? =
        some (Event.reducerCall st.reducer st.state (a + 2)) := by
  have len2 : st.middleware.length = 2 := by rw [hmw]; rfl
  constructor
  · rw [dispatch_eq_dm env st a (by rw [hmw]; simp)]
    have e0 : st.middleware.getD 0 FuncRef.unset = f1 := by rw [hmw]; rfl
    have e1 : st.middleware.getD 1 FuncRef.unset = f2 := by rw [hmw]; rfl
    rw [dm_step env st 0 a (a + 1) (by omega) (by rw [e0]; exact h1)]
    rw [dm_step env st 1 (a + 1) (a + 2) (by omega) (by rw [e1]; exact h2)]
    have hend : st.dispatch_middleware env (1 + 1) (a + 2)
        = st.dispatch_reducer env (a + 2) := by
      rw [show (1 + 1 : Nat) = st.middleware.length from by omega]
      exact dm_end env st (a + 2)
    rw [hend, e0, e1]
  · exact dr_trace_head env st (a + 2)

/-- Witness for C3: on a store with state `{counter: 0}`, middleware
`[m0, m2]` (each returning the action plus one, per `vetoEnv`) and the
`reducer` method bound, dispatching `5` calls `m0` with `5`, `m2` with `6`,
and the reducer with `7`. -/
theorem middleware_chain_composes_left_to_right_witness :
    ((((GodotRedux.new.set_state_and_reducer [("counter", Val.vint 0)] 1
            "reducer").add_middleware 1 "m0").add_middleware 1 "m2").dispatch
        vetoEnv 5).trace =
      Event.mwCall 0 (FuncRef.bound 1 "m0") [("counter", Val.vint 0)] 5
        :: Event.mwCall 1 (FuncRef.bound 1 "m2") [("counter", Val.vint 0)] 6
        :: [Event.reducerCall (FuncRef.bound 1 "reducer")
              [("counter", Val.vint 0)] 7] := by
  have h := middleware_chain_composes_left_to_right vetoEnv
    (((GodotRedux.new.set_state_and_reducer [("counter", Val.vint 0)] 1
        "reducer").add_middleware 1 "m0").add_middleware 1 "m2")
    5 (FuncRef.bound 1 "m0") (FuncRef.bound 1 "m2") rfl rfl rfl
  rw [congrArg RunResult.trace h.1]
  rfl

/-- C1: if, during a dispatch, the middleware at index `i` returns a value
that is not interpretable as an action (it does not convert to an integer),
the dispatch halts at that point: the trace contains exactly the middleware
calls up to and including index `i` — no later middleware call, no reducer
call, no subscriber notification — the store (its state included) is
unchanged, and the dispatch returns normally. -/
theorem middleware_veto_halts_dispatch (env : Env) (st : GodotRedux)
    (acts : List Int) (i : Nat) (v : Val)
    (hlen : acts.length = i + 1)
    (hi : i < st.middleware.length)
    (hsteps : ChainSteps env st acts)
    (hcall : (st.middleware.getD i FuncRef.unset).call_func env
        [Val.vdict st.state, Val.vint (acts.getD i 0)] = Except.ok v)
    (hveto : try_to_i64 v = none) :
    st.dispatch env (acts.getD 0 0) =
      ⟨st, mwTrace st acts 0 (i + 1), Outcome.ok⟩ := by
  have hne : st.middleware ≠ [] := by
    intro h0
    rw [h0] at hi
    simp at hi
  rw [dispatch_eq_dm env st _ hne]
  have hc := dm_chain env st acts i 0 (by omega) (by omega) hsteps
  simp only [Nat.zero_add] at hc
  rw [hc, dm_halt_veto env st i _ v hi hcall hveto]
  simp [mwTrace, List.range'_concat]

/-- Witness for C1: on the veto store (`m1` at index 1 returns nil), the
dispatch of action `5` calls `m0` with `5` and `m1` with `6`, then halts:
`m2`, the reducer and the subscriber are not invoked and the store is
unchanged. -/
theorem middleware_veto_halts_dispatch_witness :
    vetoStore.dispatch vetoEnv 5 =
      ⟨vetoStore,
       [Event.mwCall 0 (FuncRef.bound 1 "m0") [("counter", Val.vint 0)] 5,
        Event.mwCall 1 (FuncRef.bound 1 "m1") [("counter", Val.vint 0)] 6],
       Outcome.ok⟩ :=
  middleware_veto_halts_dispatch vetoEnv vetoStore [5, 6] 1 Val.vnil rfl
    (by decide)
    (by
      intro j hj
      have hj0 : j = 0 := by simpa using hj
      rw [hj0]
      rfl)
    rfl rfl

/-- C8 (amended): an unwinding invocation failure is never caught or retried
by the pipeline; it propagates out of `dispatch` and aborts the remainder of
that dispatch.  Three cases: (1) a middleware at index `i` unwinds — the
trace holds exactly the middleware calls up to `i`, no reducer call, no
subscriber notification, and the store is unchanged; (2) the reducer unwinds
(empty middleware) — the trace holds exactly the reducer call, and the store
is unchanged; (3) a subscriber unwinds (empty middleware, reducer returned a
dictionary) — the reducer call and the earlier subscribers ran, the failing
subscriber is the last event, later subscribers are not notified, and the
state remains the newly committed one. -/
theorem unwinding_failure_aborts_dispatch (env : Env) (st : GodotRedux) :
    (∀ (acts : List Int) (i : Nat) (e : Err),
        acts.length = i + 1 → i < st.middleware.length →
        ChainSteps env st acts →
        (st.middleware.getD i FuncRef.unset).call_func env
            [Val.vdict st.state, Val.vint (acts.getD i 0)] = Except.error e →
        st.dispatch env (acts.getD 0 0) =
          ⟨st, mwTrace st acts 0 (i + 1), Outcome.err e⟩)
    ∧ (∀ (a : Int) (e : Err), st.middleware = [] →
        st.reducer.call_func env [Val.vdict st.state, Val.vint a]
          = Except.error e →
        st.dispatch env a =
          ⟨st, [Event.reducerCall st.reducer st.state a], Outcome.err e⟩)
    ∧ (∀ (a : Int) (d : Dict) (pre : List FuncRef) (g : FuncRef)
          (post : List FuncRef) (e : Err),
        st.middleware = [] →
        st.subscriptions = pre ++ g :: post →
        st.reducer.call_func env [Val.vdict st.state, Val.vint a]
          = Except.ok (Val.vdict d) →
        (∀ f ∈ pre, isOkE (f.call_func env [Val.vdict d]) = true) →
        g.call_func env [Val.vdict d] = Except.error e →
        st.dispatch env a =
          ⟨{ st with state := d },
           Event.reducerCall st.reducer st.state a
             :: (pre.map (fun f => Event.subCall f d) ++ [Event.subCall g d]),
           Outcome.err e⟩) := by
  refine ⟨?_, ?_, ?_⟩
  · intro acts i e hlen hi hsteps hcall
    have hne : st.middleware ≠ [] := by
      intro h0
      rw [h0] at hi
      simp at hi
    rw [dispatch_eq_dm env st _ hne]
    have hc := dm_chain env st acts i 0 (by omega) (by omega) hsteps
    simp only [Nat.zero_add] at hc
    rw [hc, dm_halt_err env st i _ e hi hcall]
    simp [mwTrace, List.range'_concat]
  · intro a e hmw hred
    rw [dispatch_eq_dr env st a hmw]
    exact dr_err env st a e hred
  · intro a d pre g post e hmw hsubs hred hpre hg
    rw [dispatch_eq_dr env st a hmw, dr_ok env st a (Val.vdict d) hred]
    have hd : to_dictionary (Val.vdict d) = d := rfl
    rw [hd, hsubs, runSubscriptions_err env d pre g post e hpre hg]

/-- Witness for C8, case (2): with a reducer that panics, dispatching on the
counter store propagates the failure, leaves the state at `{counter: 0}`, and
notifies no subscriber. -/
theorem unwinding_failure_aborts_dispatch_witness :
    counterStore.dispatch panicEnv 0 =
      ⟨counterStore,
       [Event.reducerCall (FuncRef.bound 1 "reducer") [("counter", Val.vint 0)] 0],
       Outcome.err "reducer panicked"⟩ :=
  (unwinding_failure_aborts_dispatch panicEnv counterStore).2.1 0
    "reducer panicked" rfl rfl

/-! ### Counting middleware invocations -/

lemma countMw_cons_mw (i : Nat) (f : FuncRef) (s : Dict) (a : Int)
    (tr : List Event) :
    countMw (Event.mwCall i f s a :: tr) = countMw tr + 1 := by
  simp [countMw, isMwCall, List.filter]

lemma countMw_runSubscriptions (env : Env) (s : Dict) (l : List FuncRef) :
    countMw (runSubscriptions env s l).1 = 0 := by
  induction l with
  | nil => rfl
  | cons f rest ih =>
    rw [runSubscriptions]
    cases f.call_func env [Val.vdict s] with
    | error e => rfl
    | ok v => simpa [countMw, isMwCall, List.filter] using ih

lemma countMw_dr (env : Env) (st : GodotRedux) (a : Int) :
    countMw (st.dispatch_reducer env a).trace = 0 := by
  rw [GodotRedux.dispatch_reducer]
  cases st.reducer.call_func env [Val.vdict st.state, Val.vint a] with
  | error e => rfl
  | ok v =>
    simpa [countMw, isMwCall, List.filter, GodotRedux.dispatch_subscriptions]
      using countMw_runSubscriptions env (to_dictionary v) st.subscriptions

lemma dm_oob (env : Env) (st : GodotRedux) (i : Nat) (a : Int)
    (h : st.middleware.length < i) :
    st.dispatch_middleware env i a
      = ⟨st, [], Outcome.err "middleware index out of bounds"⟩ := by
  have h1 : i ≠ st.middleware.length := by omega
  have h2 : ¬ i < st.middleware.length := by omega
  conv_lhs => rw [GodotRedux.dispatch_middleware.eq_def]
  rw [if_neg h1, dif_neg h2]

lemma countMw_dm_le (env : Env) (st : GodotRedux) :
    ∀ (n i : Nat) (a : Int), st.middleware.length - i ≤ n →
      countMw (st.dispatch_middleware env i a).trace ≤ st.middleware.length - i := by
  intro n
  induction n with
  | zero =>
    intro i a hn
    rcases Nat.lt_trichotomy i st.middleware.length with h | h | h
    · omega
    · rw [h, dm_end, countMw_dr]
      omega
    · rw [dm_oob env st i a h]
      simp [countMw]
  | succ n ih =>
    intro i a hn
    rcases Nat.lt_trichotomy i st.middleware.length with h | h | h
    · cases hc : (st.middleware.getD i FuncRef.unset).call_func env
          [Val.vdict st.state, Val.vint a] with
      | error e =>
        rw [dm_halt_err env st i a e h hc]
        simp [countMw, isMwCall, List.filter]
        omega
      | ok v =>
        cases hv : try_to_i64 v with
        | none =>
          rw [dm_halt_veto env st i a v h hc hv]
          simp [countMw, isMwCall, List.filter]
          omega
        | some x =>
          have hvx : v = Val.vint x := by
            cases v <;> simp [try_to_i64] at hv
            rw [hv]
          rw [hvx] at hc
          rw [dm_step env st i a x h hc]
          show countMw (Event.mwCall i (st.middleware.getD i FuncRef.unset)
              st.state a :: (st.dispatch_middleware env (i + 1) x).trace)
            ≤ st.middleware.length - i
          rw [countMw_cons_mw]
          have hrec := ih (i + 1) x (by omega)
          omega
    · rw [h, dm_end, countMw_dr]
      omega
    · rw [dm_oob env st i a h]
      simp [countMw]

/-- C9: the middleware chain of a single dispatch terminates and is bounded
by the list length: started at any index `i`, `dispatch_middleware` performs
at most `length - i` middleware invocations (the index strictly increases
toward the list length), and a whole `dispatch` performs at most as many
middleware invocations as there are middleware.  (The environment's callables
are pure values here, so they cannot re-enter `dispatch`, matching the
claim's assumption.) -/
theorem middleware_chain_terminates_bounded (env : Env) (st : GodotRedux) :
    (∀ (i : Nat) (a : Int),
        countMw (st.dispatch_middleware env i a).trace
          ≤ st.middleware.length - i)
    ∧ ∀ (a : Int), countMw (st.dispatch env a).trace ≤ st.middleware.length := by
  have key : ∀ (i : Nat) (a : Int),
      countMw (st.dispatch_middleware env i a).trace ≤ st.middleware.length - i :=
    fun i a => countMw_dm_le env st (st.middleware.length - i) i a le_rfl
  refine ⟨key, ?_⟩
  intro a
  by_cases h : st.middleware = []
  · rw [dispatch_eq_dr env st a h, countMw_dr]
    omega
  · rw [dispatch_eq_dm env st a h]
    have := key 0 a
    omega

/-- C6: the counter scenario.  Starting from `{counter: 0}` with the
documented reducer (INCREMENT = 0, DECREMENT = 1) and no middleware, the
sequence INCREMENT, INCREMENT, DECREMENT ends in state `{counter: 1}`, every
dispatch returns normally, and across the three dispatches the subscriber is
notified exactly three times, with counter values 1, 2 and 1, in that
order. -/
theorem counter_scenario_runs :
    counterRun3.store.state = [("counter", Val.vint 1)]
    ∧ counterRun1.outcome = Outcome.ok
    ∧ counterRun2.outcome = Outcome.ok
    ∧ counterRun3.outcome = Outcome.ok
    ∧ (counterRun1.trace ++ counterRun2.trace ++ counterRun3.trace).filter isSubCall
      = [Event.subCall (FuncRef.bound 1 "on_change") [("counter", Val.vint 1)],
         Event.subCall (FuncRef.bound 1 "on_change") [("counter", Val.vint 2)],
         Event.subCall (FuncRef.bound 1 "on_change") [("counter", Val.vint 1)]] :=
  ⟨rfl, rfl, rfl, rfl, rfl⟩

/-- C7 (failing input): dispatching on a store whose reducer was never bound
does NOT fail fast.  Per Godot's `FuncRef` semantics the call on the unset
`FuncRef` reports a call error and yields nil; the pipeline then commits the
nil result coerced to the empty dictionary as the new state, notifies the
registered subscriber with it, and `dispatch` returns normally — contradicting
the claim that no state is committed and no subscriber is notified. -/
theorem unconfigured_dispatch_commits_and_notifies :
    unconfiguredStore.reducer = FuncRef.unset
    ∧ unconfiguredStore.dispatch counterEnv 0 =
        ⟨⟨[], FuncRef.unset, [], [FuncRef.bound 1 "on_change"]⟩,
         [Event.reducerCall FuncRef.unset [] 0,
          Event.subCall (FuncRef.bound 1 "on_change") []],
         Outcome.ok⟩ :=
  ⟨rfl, rfl⟩

/-- C8 (counterexample): a failing reducer invocation does not propagate out
of `dispatch` and does not abort the pipeline.  With `badReducerEnv` the
reducer call fails at the Godot level (absent or misconfigured callable);
Godot reports the call error and yields nil, and `dispatch` then commits the
nil result coerced to the empty dictionary — clobbering the previously
committed state `{counter: 0}` — still notifies the subscriber, and returns
normally, contradicting the claim that such a failure propagates, that the
reducer is not partially applied, and that the state remains what was last
successfully committed. -/
theorem failed_reducer_invocation_not_propagated :
    badReducerEnv 1 "reducer" [Val.vdict [("counter", Val.vint 0)], Val.vint 0]
      = CallOutcome.callError
    ∧ counterStore.dispatch badReducerEnv 0 =
        ⟨{ counterStore with state := [] },
         [Event.reducerCall (FuncRef.bound 1 "reducer")
            [("counter", Val.vint 0)] 0,
          Event.subCall (FuncRef.bound 1 "on_change") []],
         Outcome.ok⟩ :=
  ⟨rfl, rfl⟩

/-! ### Heap lemmas for the state-copy claims -/

lemma entriesOf_alloc_lt (h : Heap) (e : HEntries) (d : DictId)
    (hd : d < h.dicts.length) :
    (h.alloc e).1.entriesOf d = h.entriesOf d := by
  simp [Heap.alloc, Heap.entriesOf, List.getD_eq_getElem?_getD,
    List.getElem?_append_left hd]

lemma entriesOf_setKey_ne (h : Heap) (c d : DictId) (k : String) (v : HVal)
    (hne : d ≠ c) :
    (h.setKey c k v).entriesOf d = h.entriesOf d := by
  simp [Heap.setKey, Heap.entriesOf, List.getD_eq_getElem?_getD,
    List.getElem?_set_ne (Ne.symm hne)]

lemma wfB_refBound (h : Heap) (hwf : h.wfB = true) (d : DictId)
    (hd : d < h.dicts.length) :
    ∀ kv ∈ h.entriesOf d, refBound h.dicts.length kv.2 := by
  intro kv hkv
  have he : h.entriesOf d ∈ h.dicts := by
    rw [Heap.entriesOf, List.getD_eq_getElem _ _ hd]
    exact List.getElem_mem hd
  rw [Heap.wfB, List.all_eq_true] at hwf
  have h1 := hwf _ he
  rw [List.all_eq_true] at h1
  have h2 := h1 kv hkv
  cases hv : kv.2 with
  | href d2 =>
    rw [hv] at h2
    simp only [decide_eq_true_eq] at h2
    simpa [refBound] using h2
  | hnil => simp [refBound]
  | hint n0 => simp [refBound]
  | hstr s0 => simp [refBound]

/-- Two heaps that agree on the entries of every dictionary id below `n`
resolve every `n`-bounded value identically, provided all references stored
in those dictionaries stay below `n`. -/
lemma resolveV_congr (h h2 : Heap) (n : Nat)
    (hagree : ∀ d, d < n → h2.entriesOf d = h.entriesOf d)
    (hwf : ∀ d, d < n → ∀ kv ∈ h.entriesOf d, refBound n kv.2) :
    ∀ (fuel : Nat) (v : HVal), refBound n v →
      resolveV h2 fuel v = resolveV h fuel v := by
  intro fuel
  induction fuel with
  | zero =>
    intro v _
    cases v <;> rfl
  | succ f ih =>
    intro v hv
    cases v with
    | hnil => rfl
    | hint n0 => rfl
    | hstr s0 => rfl
    | href d =>
      have hd : d < n := hv
      show Val.vdict ((h2.entriesOf d).map (fun kv => (kv.1, resolveV h2 f kv.2)))
        = Val.vdict ((h.entriesOf d).map (fun kv => (kv.1, resolveV h f kv.2)))
      rw [hagree d hd]
      congr 1
      apply List.map_congr_left
      intro kv hkv
      have := ih kv.2 (hwf d hd kv hkv)
      rw [this]

lemma applyMuts_entriesOf_ne (c : DictId) (ms : List (String × HVal)) :
    ∀ (hh : Heap) (d : DictId), d ≠ c →
      (applyMuts c hh ms).entriesOf d = hh.entriesOf d := by
  induction ms with
  | nil =>
    intro hh d _
    rfl
  | cons m rest ih =>
    intro hh d hne
    have hstep : applyMuts c hh (m :: rest)
        = applyMuts c (hh.setKey c m.1 m.2) rest := by
      simp [applyMuts, List.foldl_cons]
    rw [hstep, ih (hh.setKey c m.1 m.2) d hne,
      entriesOf_setKey_ne hh c d m.1 m.2 hne]

/-- C5 (amended): `state()` returns a top-level-independent (shallow) copy:
for a well-formed heap, duplicating the state dictionary and then applying
any sequence of top-level writes to the copy leaves the state observed
through the store (the resolved value of the state dictionary, to any depth)
unchanged. -/
theorem state_copy_top_level_independent (h : Heap) (sid : DictId)
    (hwf : h.wfB = true) (hsid : sid < h.dicts.length) :
    ∀ (ms : List (String × HVal)) (fuel : Nat),
      resolveV (applyMuts (h.duplicate sid).2 (h.duplicate sid).1 ms) fuel
          (HVal.href sid)
        = resolveV h fuel (HVal.href sid) := by
  intro ms fuel
  have hagree : ∀ d, d < h.dicts.length →
      (applyMuts (h.duplicate sid).2 (h.duplicate sid).1 ms).entriesOf d
        = h.entriesOf d := by
    intro d hd
    have hne : d ≠ (h.duplicate sid).2 := by
      show d ≠ h.dicts.length
      omega
    rw [applyMuts_entriesOf_ne _ ms _ d hne]
    exact entriesOf_alloc_lt h (h.entriesOf sid) d hd
  exact resolveV_congr h _ h.dicts.length hagree
    (fun d hd => wfB_refBound h hwf d hd) fuel (HVal.href sid) hsid

/-- Witness for C5 (amended): on the two-level counterexample heap, writing
the top-level key `a` of the copy does not change the state observed through
the store. -/
theorem state_copy_top_level_independent_witness :
    resolveV (applyMuts (cexHeap.duplicate 0).2 (cexHeap.duplicate 0).1
        [("a", HVal.hint 9)]) 2 (HVal.href 0)
      = resolveV cexHeap 2 (HVal.href 0) :=
  state_copy_top_level_independent cexHeap 0 rfl (by decide) [("a", HVal.hint 9)] 2

/-- C5 (counterexample): the copy returned by `state()` is NOT deep.  On the
heap with state `{a: {x: 0}}`, the copy's entry `a` still references the
original nested dictionary (id 1); writing `x = 1` through that reference
changes the state observed through the store from `{a: {x: 0}}` to
`{a: {x: 1}}`, refuting value-independence of the copy under mutations of
nested mappings. -/
theorem state_copy_not_deep :
    (cexHeap.duplicate 0).1.getKey (cexHeap.duplicate 0).2 "a" = HVal.href 1
    ∧ resolveV cexHeap 2 (HVal.href 0)
        = Val.vdict [("a", Val.vdict [("x", Val.vint 0)])]
    ∧ resolveV ((cexHeap.duplicate 0).1.setKey 1 "x" (HVal.hint 1)) 2
          (HVal.href 0)
        = Val.vdict [("a", Val.vdict [("x", Val.vint 1)])]
    ∧ resolveV ((cexHeap.duplicate 0).1.setKey 1 "x" (HVal.hint 1)) 2
          (HVal.href 0)
      ≠ resolveV cexHeap 2 (HVal.href 0) := by
  refine ⟨rfl, rfl, rfl, ?_⟩
  intro hcontra
  have h1 : resolveV ((cexHeap.duplicate 0).1.setKey 1 "x" (HVal.hint 1)) 2
      (HVal.href 0) = Val.vdict [("a", Val.vdict [("x", Val.vint 1)])] := rfl
  have h2 : resolveV cexHeap 2 (HVal.href 0)
      = Val.vdict [("a", Val.vdict [("x", Val.vint 0)])] := rfl
  rw [h1, h2] at hcontra
  simp at hcontra

end GodotReduxModel
